import Mathlib

/-!
Verification of `transport.go` (go-httpclientmetrics)

A shallow embedding of the instrumenting `http.RoundTripper` of package
`transport`, followed by theorems about route labelling, status labelling,
metric naming, the effect of `RoundTrip` on the metrics registry, and
`NewTransport`.

Modelling conventions.

* Go strings are Lean strings.  The only byte-indexing in the source,
  `statusCode[0]`, is applied to the result of `strconv.Itoa`, which is ASCII,
  so the first byte is the first character.
* Nil-able Go values (pointers, interfaces, maps) are `Option`s or empty lists;
  a nil dereference is the outcome `Outcome.panicked`.
* A Go map has no iteration order.  The field `mr` lists the entries of the map
  and `RoundTrip` takes, as an argument, the order in which the `range`
  statement of this call enumerates them (any permutation of `mr`).
* `*metrics.Set` values live in a `Heap`; a set is a map from metric name to
  metric with the get-or-create-by-name behaviour of the library, which panics
  when it is to create a histogram under a name that fails its validation and
  when the name is held by a metric that is no histogram.
* `time.Now` and `time.Since` are not computed: the elapsed time that a call
  observes is an argument of `RoundTrip`.
-/

set_option autoImplicit false

namespace transport

/-! ## Collaborators: `regexp`, `net/url`, `net/http`, `strconv`, `metrics` -/

/-- A compiled `*regexp.Regexp`, represented by its `MatchString` method. -/
structure Regexp where
  /-- Whether the pattern matches the given text. -/
  MatchString : String → Bool

/-- A `*url.URL`, represented by the text its `String` method renders. -/
structure URL where
  /-- The rendered URL. -/
  rendered : String

/-- The method `(*url.URL).String`. -/
def URL.String (u : URL) : String := u.rendered

/-- The fields of `http.Request` that `RoundTrip` reads; `URL` may be nil. -/
structure Request where
  /-- The HTTP method. -/
  Method : String
  /-- The request URL, `none` for a nil pointer. -/
  URL : Option URL

/-- The fields of `http.Response` that `RoundTrip` reads, and a body standing
for the remaining content; `Request` may be nil. -/
structure Response where
  /-- The status code, a Go `int`. -/
  StatusCode : Int
  /-- The remaining content of the response. -/
  Body : String
  /-- The request that was sent to obtain this response, `none` for nil. -/
  Request : Option Request

/-- A non-nil Go `error` value. -/
structure Error where
  /-- The error text. -/
  msg : String

/-- An `http.RoundTripper`: what its `RoundTrip` method returns for a request,
a pair of a possibly nil response and a possibly nil error. -/
abbrev RoundTripper := Request → Option Response × Option Error

/-- The function `strconv.Itoa`: the decimal text of an integer. -/
def Itoa : Int → String
  | Int.ofNat n => Nat.repr n
  | Int.negSucc n => "-" ++ Nat.repr (n + 1)

/-- An elapsed time, in nanoseconds. -/
abbrev Duration := Nat

/-- A `metrics.Histogram`, represented by the observations it has received. -/
structure Histogram where
  /-- The observed durations, oldest first. -/
  observations : List Duration
deriving DecidableEq

/-- The number of observations of a histogram. -/
def Histogram.count (hist : Histogram) : Nat := hist.observations.length

/-- A metric registered in a `metrics.Set`: a histogram, or a metric of another
kind (counter, gauge, summary). -/
inductive Metric where
  /-- A histogram. -/
  | histogram (hist : Histogram)
  /-- A metric that is no histogram. -/
  | other
deriving DecidableEq

/-- The content of a `metrics.Set`: the metric registered under each name. -/
abbrev MetricsSet := String → Option Metric

/-- The double quote character. -/
def quote : Char := Char.ofNat 34

/-- The backslash character. -/
def backslash : Char := Char.ofNat 92

/-- The opening curly brace. -/
def openBrace : Char := Char.ofNat 123

/-- The closing curly brace. -/
def closeBrace : Char := Char.ofNat 125

/-- The first character of an identifier of the metrics library, `[a-zA-Z_:.]`. -/
def identStartChar (c : Char) : Bool :=
  c.isAlpha || c = Char.ofNat 95 || c = Char.ofNat 58 || c = Char.ofNat 46

/-- A later character of an identifier of the metrics library,
`[a-zA-Z0-9_:.]`. -/
def identChar (c : Char) : Bool := identStartChar c || c.isDigit

/-- The check `validateIdent` of the metrics library: the text matches
`^[a-zA-Z_:.][a-zA-Z0-9_:.]*$`. -/
def validateIdent : List Char → Bool
  | [] => false
  | c :: cs => identStartChar c && cs.all identChar

/-- Where the scan of `validateTags` stands in the text between the braces. -/
inductive TagState where
  /-- At the first character of a label name. -/
  | nameStart
  /-- Inside a label name, before the equals sign. -/
  | name
  /-- After the equals sign, where the opening quote must stand. -/
  | opening
  /-- Inside a label value; `escaped` tells whether an odd number of
  backslashes stands right before the next character. -/
  | value (escaped : Bool)
  /-- After the closing quote of a label value. -/
  | closed
  /-- After the comma between two labels, where spaces are skipped. -/
  | spaces

/-- The loop of `validateTags` of the metrics library, as one pass over the
text: labels `name="value"` separated by a comma and optional spaces, a quote
inside a value being one with an odd number of backslashes right before it. -/
def validateTagsFrom : TagState → List Char → Bool
  | TagState.closed, [] => true
  | _, [] => false
  | TagState.nameStart, c :: cs =>
    if identStartChar c then validateTagsFrom TagState.name cs else false
  | TagState.name, c :: cs =>
    if c = Char.ofNat 61 then validateTagsFrom TagState.opening cs
    else if identChar c then validateTagsFrom TagState.name cs else false
  | TagState.opening, c :: cs =>
    if c = quote then validateTagsFrom (TagState.value false) cs else false
  | TagState.value escaped, c :: cs =>
    if c = quote then
      if escaped then validateTagsFrom (TagState.value false) cs
      else validateTagsFrom TagState.closed cs
    else if c = backslash then validateTagsFrom (TagState.value (!escaped)) cs
    else validateTagsFrom (TagState.value false) cs
  | TagState.closed, c :: cs =>
    if c = Char.ofNat 44 then validateTagsFrom TagState.spaces cs else false
  | TagState.spaces, c :: cs =>
    if c = Char.ofNat 32 then validateTagsFrom TagState.spaces cs
    else if identStartChar c then validateTagsFrom TagState.name cs else false

/-- The check `validateTags` of the metrics library on the text between the
braces; the empty text is accepted. -/
def validateTags (s : List Char) : Bool :=
  if s.isEmpty then true else validateTagsFrom TagState.nameStart s

/-- The validation of a metric name by the metrics library (`ValidateMetric`),
`true` when the name is accepted: the name is not empty, holds no line break,
and is an identifier, optionally followed by labels between curly braces. -/
def ValidateMetric (name : String) : Bool :=
  let s := name.data
  if s.isEmpty then false
  else if s.contains (Char.ofNat 10) then false
  else
    match s.dropWhile (fun c => c != openBrace) with
    | [] => validateIdent s
    | _ :: tags =>
      validateIdent (s.takeWhile (fun c => c != openBrace))
        && (tags.getLast? == some closeBrace) && validateTags tags.dropLast

/-- The method `(*metrics.Set).GetOrCreateHistogram`, as far as it changes the
set: a missing name is registered with an empty histogram when the name passes
`ValidateMetric`.  The result is `none` when the library panics: the missing
name fails the validation, or a metric that is no histogram holds the name. -/
def MetricsSet.GetOrCreateHistogram (s : MetricsSet) (name : String) : Option MetricsSet :=
  match s name with
  | some (Metric.histogram _) => some s
  | some Metric.other => none
  | none =>
    if ValidateMetric name then
      some (Function.update s name (some (Metric.histogram (Histogram.mk []))))
    else none

/-- The method `(*metrics.Histogram).UpdateDuration` applied to the histogram
registered under `name`: one observation is added. -/
def MetricsSet.UpdateDuration (s : MetricsSet) (name : String) (d : Duration) : MetricsSet :=
  match s name with
  | some (Metric.histogram hist) =>
    Function.update s name (some (Metric.histogram (Histogram.mk (hist.observations ++ [d]))))
  | _ => s

/-- The observations of the histogram registered under a name, none when no
histogram is registered under it. -/
def MetricsSet.observations (s : MetricsSet) (name : String) : List Duration :=
  match s name with
  | some (Metric.histogram hist) => hist.observations
  | _ => []

/-- The observation count of the histogram registered under a name. -/
def MetricsSet.count (s : MetricsSet) (name : String) : Option Nat :=
  match s name with
  | some (Metric.histogram hist) => some hist.count
  | _ => none

/-- The address of a `metrics.Set`. -/
abbrev SetRef := Nat

/-- The allocated `metrics.Set` values: `next` is the first unused address. -/
structure Heap where
  /-- The first address not yet allocated. -/
  next : SetRef
  /-- The content of the set at each address. -/
  sets : SetRef → MetricsSet

/-- The function `metrics.NewSet`: allocates an empty set. -/
def NewSet (h : Heap) : SetRef × Heap :=
  (h.next, Heap.mk (h.next + 1) (Function.update h.sets h.next (fun _ => none)))

/-- The statement `s.GetOrCreateHistogram(name).UpdateDuration(start)` on the
set at address `m`, where `d` is the time elapsed since `start`; the result is
`none` when `GetOrCreateHistogram` panics. -/
def Heap.record (h : Heap) (m : SetRef) (name : String) (d : Duration) : Option Heap :=
  match (h.sets m).GetOrCreateHistogram name with
  | none => none
  | some s => some (Heap.mk h.next (Function.update h.sets m (s.UpdateDuration name d)))

/-! ## Package `transport` -/

/-- The struct `Transport`. -/
structure Transport where
  /-- The metrics set, `none` for a nil pointer. -/
  m : Option SetRef
  /-- The underlying round tripper, `none` for a nil interface. -/
  rt : Option RoundTripper
  /-- The service name. -/
  name : String
  /-- The entries of the route map. -/
  mr : List (Regexp × String)
  /-- The normalize flag. -/
  normalize : Bool

/-- The struct `Prefs`. -/
structure Prefs where
  /-- The metrics set, `none` when unset. -/
  Metrics : Option SetRef
  /-- The normalize flag. -/
  Normalize : Bool
  /-- The service name, empty when unset. -/
  Name : String
  /-- The entries of the route map, empty when unset. -/
  MatchRoute : List (Regexp × String)
  /-- The underlying round tripper, `none` when unset. -/
  Transport : Option RoundTripper

/-- The zero value `Prefs{}`. -/
def Prefs.zero : Prefs := Prefs.mk none false "" [] none

/-- The function `NewTransport`.  `DefaultTransport` is the value of the
variable `http.DefaultTransport`.  The result is the new `Transport`, the
`Prefs` as the function leaves them behind the caller's pointer, and the heap. -/
def NewTransport (DefaultTransport : RoundTripper) (p : Prefs) (h : Heap) :
    Transport × Prefs × Heap :=
  let p := if p.Transport.isNone then { p with Transport := some DefaultTransport } else p
  let ph : Prefs × Heap :=
    if p.Metrics.isNone then ({ p with Metrics := some (NewSet h).1 }, (NewSet h).2) else (p, h)
  let p := ph.1
  let h := ph.2
  let p := if p.Name = "" then { p with Name := "client-metrics" } else p
  ({ m := p.Metrics, name := p.Name, rt := p.Transport, mr := p.MatchRoute,
     normalize := p.Normalize }, p, h)

/-- The status label of `RoundTrip`: `strconv.Itoa(resp.StatusCode)`, replaced
by `string(statusCode[0]) + "XX"` when the normalize flag is set.  The result is
`none` when the index expression is out of range. -/
def statusLabel (normalize : Bool) (StatusCode : Int) : Option String :=
  let statusCode := Itoa StatusCode
  if normalize then
    match statusCode.data with
    | b :: _ => some (String.singleton b ++ "XX")
    | [] => none
  else some statusCode

/-- The `for k, v := range t.mr` loop of `RoundTrip` over the entries in the
order the range statement enumerates them, on the variables `u` and `flag`. -/
def rangeLoop : List (Regexp × String) → String → Bool → String × Bool
  | [], u, flag => (u, flag)
  | (k, v) :: rest, u, flag =>
    let uf : String × Bool := if k.MatchString u then (v, true) else (u, flag)
    if uf.2 then uf else rangeLoop rest uf.1 uf.2

/-- The value of `u` after the loop of `RoundTrip`, which started with the
rendered URL and `flag = false`. -/
def routeLabel (order : List (Regexp × String)) (u : String) : String :=
  (rangeLoop order u false).1

/-- The metric name that `RoundTrip` composes with `fmt.Sprintf`. -/
def metricName (statusCode method u name : String) : String :=
  "http_client_request_duration_seconds\x7bstatus=\"" ++ statusCode ++ "\",method=\"" ++ method
    ++ "\",url=\"" ++ u ++ "\",module_name=\"" ++ name ++ "\"\x7d"

/-- How a call of `RoundTrip` ends. -/
inductive Outcome where
  /-- The call returns a response and an error, each possibly nil. -/
  | returned (resp : Option Response) (err : Option Error)
  /-- The call panics: a nil pointer is dereferenced, or the metrics library
  panics. -/
  | panicked

/-- The method `(*Transport).RoundTrip`.  `order` is the order in which the
range statement enumerates `t.mr`, `elapsed` the time since `start` at the
moment of `UpdateDuration`. -/
def RoundTrip (t : Transport) (order : List (Regexp × String)) (elapsed : Duration)
    (r : Request) (h : Heap) : Outcome × Heap :=
  match t.rt with
  | none => (Outcome.panicked, h)
  | some rt =>
    match rt r with
    | (resp, some err) => (Outcome.returned resp (some err), h)
    | (none, none) => (Outcome.panicked, h)
    | (some resp, none) =>
      match statusLabel t.normalize resp.StatusCode with
      | none => (Outcome.panicked, h)
      | some statusCode =>
        match resp.Request with
        | none => (Outcome.panicked, h)
        | some req =>
          match req.URL with
          | none => (Outcome.panicked, h)
          | some url =>
            let u := routeLabel order url.String
            match t.m with
            | none => (Outcome.panicked, h)
            | some m =>
              match h.record m (metricName statusCode req.Method u t.name) elapsed with
              | none => (Outcome.panicked, h)
              | some h2 => (Outcome.returned (some resp) none, h2)

/-! ## Definitions used to state the properties -/

/-- The label of the first rule, in the order of the list, whose pattern
matches the text: the result the specification words for the route labeler. -/
def firstMatchLabel (rules : List (Regexp × String)) (u : String) : Option String :=
  (rules.find? fun e => e.1.MatchString u).map fun e => e.2

/-- The decimal digit characters of a natural number, most significant first. -/
def decimalDigits (n : Nat) : List Char :=
  if _h : n < 10 then [Nat.digitChar n] else decimalDigits (n / 10) ++ [Nat.digitChar (n % 10)]
termination_by n
decreasing_by omega

/-- The leading decimal digit of a natural number. -/
def leadingDigit (n : Nat) : Nat := n / 10 ^ Nat.log 10 n

/-- The number that a list of decimal digit characters denotes. -/
def decimalValue (cs : List Char) : Nat :=
  cs.foldl (fun acc c => acc * 10 + (c.toNat - 48)) 0

/-- The minus sign. -/
def minus : Char := Char.ofNat 45

/-! ## Concrete configurations -/

/-- The pattern `^/users/\d+$`: the text is `/users/` followed by one or more
decimal digits. -/
def usersIdPattern : Regexp :=
  Regexp.mk fun s =>
    "/users/".data.isPrefixOf s.data && !(s.data.drop 7).isEmpty && (s.data.drop 7).all Char.isDigit

/-- A pattern that matches every text. -/
def anyPattern : Regexp := Regexp.mk fun _ => true

/-- A heap with no registered histogram. -/
def Heap.empty : Heap := Heap.mk 0 fun _ _ => none

/-- An underlying transport that fails every request. -/
def refusingTransport : RoundTripper := fun _ => (none, some (Error.mk "connection refused"))

/-- An underlying transport that answers every request with the given status
code and records the request on the response. -/
def answeringTransport (status : Int) : RoundTripper :=
  fun r => (some (Response.mk status "" (some r)), none)

/-- A heap whose set at address 0 holds a metric that is no histogram under
the name that the end-to-end scenario composes. -/
def Heap.withOtherMetric : Heap :=
  Heap.mk 1 fun m name =>
    if m = 0 ∧ name = metricName "200" "GET" "/users/:id" "svc" then some Metric.other else none

/-- An underlying transport that answers with status 200 and records no
request on the response. -/
def bareTransport : RoundTripper := fun _ => (some (Response.mk 200 "" none), none)

/-- The request `GET /users/42`. -/
def getUsers42 : Request := Request.mk "GET" (some (URL.mk "/users/42"))

/-- The transport of the end-to-end scenario: service name `svc`, no
normalization, one rule from `usersIdPattern` to `/users/:id`. -/
def svcTransport (rt : RoundTripper) : Transport :=
  Transport.mk (some 0) (some rt) "svc" [(usersIdPattern, "/users/:id")] false

/-! ## The range loop -/

theorem rangeLoop_no_match (order : List (Regexp × String)) (u : String)
    (hno : ∀ e ∈ order, e.1.MatchString u = false) : rangeLoop order u false = (u, false) := by
  induction order with
  | nil => rfl
  | cons e rest ih =>
    obtain ⟨k, v⟩ := e
    have hk : k.MatchString u = false := hno (k, v) (List.mem_cons_self _ _)
    have hrest : ∀ e ∈ rest, e.1.MatchString u = false :=
      fun e he => hno e (List.mem_cons_of_mem _ he)
    simp [rangeLoop, hk, ih hrest]

theorem rangeLoop_first_match (pre post : List (Regexp × String)) (k : Regexp) (v u : String)
    (hpre : ∀ e ∈ pre, e.1.MatchString u = false) (hk : k.MatchString u = true) :
    rangeLoop (pre ++ (k, v) :: post) u false = (v, true) := by
  induction pre with
  | nil => simp [rangeLoop, hk]
  | cons e rest ih =>
    obtain ⟨k0, v0⟩ := e
    have hk0 : k0.MatchString u = false := hpre (k0, v0) (List.mem_cons_self _ _)
    have hrest : ∀ e ∈ rest, e.1.MatchString u = false :=
      fun e he => hpre e (List.mem_cons_of_mem _ he)
    simp [rangeLoop, hk0, ih hrest]

theorem exists_first_match (order : List (Regexp × String)) (u : String)
    (h : ∃ e ∈ order, e.1.MatchString u = true) :
    ∃ pre k v post, order = pre ++ (k, v) :: post ∧
      (∀ e ∈ pre, e.1.MatchString u = false) ∧ k.MatchString u = true := by
  induction order with
  | nil => obtain ⟨e, he, _⟩ := h; cases he
  | cons e rest ih =>
    obtain ⟨k0, v0⟩ := e
    by_cases hk0 : k0.MatchString u = true
    · exact ⟨[], k0, v0, rest, rfl, by simp, hk0⟩
    · have hk0f : k0.MatchString u = false := by simpa using hk0
      have hrest : ∃ e ∈ rest, e.1.MatchString u = true := by
        obtain ⟨e, he, hm⟩ := h
        rcases List.mem_cons.mp he with rfl | he
        · exact absurd hm hk0
        · exact ⟨e, he, hm⟩
      obtain ⟨pre, k, v, post, hsplit, hpre, hk⟩ := ih hrest
      refine ⟨(k0, v0) :: pre, k, v, post, by simp [hsplit], ?_, hk⟩
      intro e he
      rcases List.mem_cons.mp he with rfl | he
      · exact hk0f
      · exact hpre e he

theorem routeLabel_eq_firstMatchLabel (order : List (Regexp × String)) (u : String) :
    routeLabel order u = (firstMatchLabel order u).getD u := by
  by_cases h : ∃ e ∈ order, e.1.MatchString u = true
  · obtain ⟨pre, k, v, post, hsplit, hpre, hk⟩ := exists_first_match order u h
    subst hsplit
    have hfind : (pre ++ (k, v) :: post).find? (fun e => e.1.MatchString u) = some (k, v) := by
      rw [List.find?_append]
      have : pre.find? (fun e => e.1.MatchString u) = none := by
        simpa using hpre
      simp [this, hk]
    simp [routeLabel, rangeLoop_first_match pre post k v u hpre hk, firstMatchLabel, hfind]
  · have hno : ∀ e ∈ order, e.1.MatchString u = false := by
      intro e he
      by_contra hc
      exact h ⟨e, he, by simpa using hc⟩
    have hfind : order.find? (fun e => e.1.MatchString u) = none := by
      simpa using hno
    simp [routeLabel, rangeLoop_no_match order u hno, firstMatchLabel, hfind]

/-- C1 (amended): when some rule matches the rendered URL, the route label is
the label of the first matching rule in the order in which the range statement
enumerates the map, which is one of the matching rules of the map; the rules
that the enumeration places after it have no influence on the label. -/
theorem routeLabel_first_in_enumeration (mr order : List (Regexp × String)) (u : String)
    (hperm : order.Perm mr) (hmatch : ∃ e ∈ mr, e.1.MatchString u = true) :
    ∃ pre k v post, order = pre ++ (k, v) :: post ∧
      (∀ e ∈ pre, e.1.MatchString u = false) ∧ k.MatchString u = true ∧ (k, v) ∈ mr ∧
      routeLabel order u = v ∧ some (routeLabel order u) = firstMatchLabel order u ∧
      ∀ later, routeLabel (pre ++ (k, v) :: later) u = v := by
  have hmatch2 : ∃ e ∈ order, e.1.MatchString u = true := by
    obtain ⟨e, he, hm⟩ := hmatch
    exact ⟨e, hperm.mem_iff.mpr he, hm⟩
  obtain ⟨pre, k, v, post, hsplit, hpre, hk⟩ := exists_first_match order u hmatch2
  have hlabel : ∀ later, routeLabel (pre ++ (k, v) :: later) u = v := by
    intro later
    simp [routeLabel, rangeLoop_first_match pre later k v u hpre hk]
  have hmem : (k, v) ∈ mr := by
    apply hperm.mem_iff.mp
    rw [hsplit]
    simp
  have hv : routeLabel order u = v := by rw [hsplit]; exact hlabel post
  refine ⟨pre, k, v, post, hsplit, hpre, hk, hmem, hv, ?_, hlabel⟩
  have hfind : order.find? (fun e => e.1.MatchString u) = some (k, v) := by
    rw [hsplit, List.find?_append]
    have : pre.find? (fun e => e.1.MatchString u) = none := by
      simpa using hpre
    simp [this, hk]
  simp [hv, firstMatchLabel, hfind]

theorem routeLabel_first_in_enumeration_witness :
    ∃ pre k v post, [(usersIdPattern, "/users/:id"), (anyPattern, "other")]
        = pre ++ (k, v) :: post ∧
      (∀ e ∈ pre, e.1.MatchString "/users/42" = false) ∧ k.MatchString "/users/42" = true ∧
      (k, v) ∈ [(anyPattern, "other"), (usersIdPattern, "/users/:id")] ∧
      routeLabel [(usersIdPattern, "/users/:id"), (anyPattern, "other")] "/users/42" = v ∧
      some (routeLabel [(usersIdPattern, "/users/:id"), (anyPattern, "other")] "/users/42")
        = firstMatchLabel [(usersIdPattern, "/users/:id"), (anyPattern, "other")] "/users/42" ∧
      ∀ later, routeLabel (pre ++ (k, v) :: later) "/users/42" = v :=
  routeLabel_first_in_enumeration
    [(anyPattern, "other"), (usersIdPattern, "/users/:id")]
    [(usersIdPattern, "/users/:id"), (anyPattern, "other")] "/users/42"
    (List.Perm.swap _ _ _) ⟨(anyPattern, "other"), by simp, rfl⟩

/-- C1 (as stated) fails: the label is not always that of the first matching
rule in the order in which the rules were supplied, because the range statement
may enumerate the map in another order. -/
theorem routeLabel_not_construction_order :
    ¬ ∀ (mr order : List (Regexp × String)) (u : String), order.Perm mr →
        (∃ e ∈ mr, e.1.MatchString u = true) →
        some (routeLabel order u) = firstMatchLabel mr u := by
  intro h
  have h1 := h [(anyPattern, "a"), (anyPattern, "b")] [(anyPattern, "b"), (anyPattern, "a")] "/x"
    (List.Perm.swap _ _ _) ⟨(anyPattern, "a"), by simp, rfl⟩
  revert h1
  decide

/-- C2: when no pattern of the rule set matches the rendered URL, the route
label is the rendered URL itself, whatever the order of enumeration; with an
empty rule set this holds for every URL. -/
theorem routeLabel_fallback (mr order : List (Regexp × String)) (u : String)
    (hperm : order.Perm mr) (hno : ∀ e ∈ mr, e.1.MatchString u = false) :
    routeLabel order u = u := by
  have hno2 : ∀ e ∈ order, e.1.MatchString u = false :=
    fun e he => hno e (hperm.mem_iff.mp he)
  simp [routeLabel, rangeLoop_no_match order u hno2]

theorem routeLabel_fallback_witness : routeLabel [] "/orders/99" = "/orders/99" :=
  routeLabel_fallback [] [] "/orders/99" (List.Perm.refl _) (by simp)

/-! ## Decimal text -/

theorem decimalDigits_lt (n : Nat) (h : n < 10) : decimalDigits n = [Nat.digitChar n] := by
  rw [decimalDigits]; simp [h]

theorem decimalDigits_ge (n : Nat) (h : 10 ≤ n) :
    decimalDigits n = decimalDigits (n / 10) ++ [Nat.digitChar (n % 10)] := by
  rw [decimalDigits]; simp [Nat.not_lt.mpr h]

theorem toDigitsCore_eq (fuel : Nat) : ∀ (n : Nat) (ds : List Char), n < fuel →
    Nat.toDigitsCore 10 fuel n ds = decimalDigits n ++ ds := by
  induction fuel with
  | zero => intro n ds h; omega
  | succ fuel ih =>
    intro n ds h
    by_cases hn : n < 10
    · have h0 : n / 10 = 0 := by omega
      have h1 : n % 10 = n := by omega
      simp [Nat.toDigitsCore, h0, h1, decimalDigits_lt n hn]
    · have h0 : n / 10 ≠ 0 := by omega
      have hlt : n / 10 < fuel := by omega
      simp [Nat.toDigitsCore, h0, ih (n / 10) _ hlt, decimalDigits_ge n (by omega)]

theorem repr_data (n : Nat) : (Nat.repr n).data = decimalDigits n := by
  simp [Nat.repr, Nat.toDigits, toDigitsCore_eq (n + 1) n [] (by omega), List.asString]

theorem decimalDigits_ne_nil (n : Nat) : decimalDigits n ≠ [] := by
  by_cases hn : n < 10
  · simp [decimalDigits_lt n hn]
  · simp [decimalDigits_ge n (by omega)]

theorem leadingDigit_lt (n : Nat) (h : n < 10) : leadingDigit n = n := by
  simp [leadingDigit, Nat.log_of_lt h]

theorem leadingDigit_ge (n : Nat) (h : 10 ≤ n) : leadingDigit n = leadingDigit (n / 10) := by
  unfold leadingDigit
  have hlog : Nat.log 10 n = Nat.log 10 (n / 10) + 1 := by
    rw [Nat.log_of_one_lt_of_le (by norm_num) h]
  rw [hlog, pow_succ, Nat.mul_comm, ← Nat.div_div_eq_div_mul]

theorem leadingDigit_lt_ten (n : Nat) : leadingDigit n < 10 := by
  induction n using Nat.strong_induction_on with
  | _ n ih =>
    by_cases hn : n < 10
    · rw [leadingDigit_lt n hn]; exact hn
    · rw [leadingDigit_ge n (by omega)]; exact ih (n / 10) (by omega)

theorem leadingDigit_three_digits (n : Nat) (hlo : 100 ≤ n) (hhi : n ≤ 999) :
    leadingDigit n = n / 100 := by
  have hlog : Nat.log 10 n = 2 := by
    rw [Nat.log_eq_iff (by norm_num)]
    constructor <;> omega
  simp [leadingDigit, hlog]

theorem decimalDigits_head (n : Nat) :
    (decimalDigits n).head? = some (Nat.digitChar (leadingDigit n)) := by
  induction n using Nat.strong_induction_on with
  | _ n ih =>
    by_cases hn : n < 10
    · simp [decimalDigits_lt n hn, leadingDigit_lt n hn]
    · have hge : 10 ≤ n := by omega
      rw [decimalDigits_ge n hge, leadingDigit_ge n hge,
        List.head?_append_of_ne_nil _ (decimalDigits_ne_nil _)]
      exact ih (n / 10) (by omega)

theorem digitChar_value (d : Nat) (h : d < 10) : (Nat.digitChar d).toNat - 48 = d := by
  interval_cases d <;> rfl

theorem digitChar_ne_minus (d : Nat) (h : d < 10) : Nat.digitChar d ≠ minus := by
  interval_cases d <;> decide

theorem digitChar_ne_quote (d : Nat) (h : d < 10) : Nat.digitChar d ≠ quote := by
  interval_cases d <;> decide

theorem decimalDigits_no_quote (n : Nat) : quote ∉ decimalDigits n := by
  induction n using Nat.strong_induction_on with
  | _ n ih =>
    by_cases hn : n < 10
    · rw [decimalDigits_lt n hn]
      simpa using (digitChar_ne_quote n hn).symm
    · rw [decimalDigits_ge n (by omega)]
      have h1 := ih (n / 10) (by omega)
      have h2 := (digitChar_ne_quote (n % 10) (Nat.mod_lt _ (by norm_num))).symm
      simp [h1, h2]

theorem decimalValue_append (cs : List Char) (c : Char) :
    decimalValue (cs ++ [c]) = decimalValue cs * 10 + (c.toNat - 48) := by
  simp [decimalValue, List.foldl_append]

theorem decimalValue_decimalDigits (n : Nat) : decimalValue (decimalDigits n) = n := by
  induction n using Nat.strong_induction_on with
  | _ n ih =>
    by_cases hn : n < 10
    · rw [decimalDigits_lt n hn]
      simp [decimalValue, digitChar_value n hn]
    · have hge : 10 ≤ n := by omega
      rw [decimalDigits_ge n hge, decimalValue_append, ih (n / 10) (by omega),
        digitChar_value _ (Nat.mod_lt _ (by norm_num))]
      omega

theorem Itoa_ofNat_data (n : Nat) : (Itoa (Int.ofNat n)).data = decimalDigits n := by
  simp [Itoa, repr_data]

theorem Itoa_negSucc_data (n : Nat) :
    (Itoa (Int.negSucc n)).data = minus :: decimalDigits (n + 1) := by
  simp [Itoa, repr_data, minus]

theorem Itoa_data (c : Int) :
    (Itoa c).data = (if c < 0 then [minus] else []) ++ decimalDigits c.natAbs := by
  cases c with
  | ofNat n => simpa using Itoa_ofNat_data n
  | negSucc n =>
    rw [Itoa_negSucc_data]
    simp [Int.negSucc_lt_zero, Int.natAbs_negSucc]

theorem Itoa_injective (a b : Int) (h : Itoa a = Itoa b) : a = b := by
  have hd : (Itoa a).data = (Itoa b).data := by rw [h]
  cases a with
  | ofNat n =>
    cases b with
    | ofNat m =>
      rw [Itoa_ofNat_data, Itoa_ofNat_data] at hd
      have := congrArg decimalValue hd
      rw [decimalValue_decimalDigits, decimalValue_decimalDigits] at this
      rw [this]
    | negSucc m =>
      rw [Itoa_ofNat_data, Itoa_negSucc_data] at hd
      have hh := congrArg List.head? hd
      rw [decimalDigits_head] at hh
      simp at hh
      exact absurd hh (digitChar_ne_minus _ (leadingDigit_lt_ten n))
  | negSucc n =>
    cases b with
    | ofNat m =>
      rw [Itoa_ofNat_data, Itoa_negSucc_data] at hd
      have hh := congrArg List.head? hd
      rw [decimalDigits_head] at hh
      simp at hh
      exact absurd hh.symm (digitChar_ne_minus _ (leadingDigit_lt_ten m))
    | negSucc m =>
      rw [Itoa_negSucc_data, Itoa_negSucc_data] at hd
      have ht : decimalDigits (n + 1) = decimalDigits (m + 1) := by
        simpa using hd
      have := congrArg decimalValue ht
      rw [decimalValue_decimalDigits, decimalValue_decimalDigits] at this
      have hnm : n = m := by omega
      rw [hnm]

theorem Itoa_no_quote (c : Int) : quote ∉ (Itoa c).data := by
  rw [Itoa_data]
  have h := decimalDigits_no_quote c.natAbs
  have hq : quote ≠ minus := by decide
  by_cases hc : c < 0 <;> simp [hc, h, hq]

/-! ## The status label -/

theorem statusLabel_normalize_ofNat (n : Nat) :
    statusLabel true (Int.ofNat n)
      = some (String.singleton (Nat.digitChar (leadingDigit n)) ++ "XX") := by
  have hh := decimalDigits_head n
  have hd := Itoa_ofNat_data n
  unfold statusLabel
  simp only [if_true]
  cases hds : decimalDigits n with
  | nil => exact absurd hds (decimalDigits_ne_nil n)
  | cons b rest =>
    rw [hds] at hh hd
    simp at hh
    rw [hd, hh]

theorem statusLabel_total (normalize : Bool) (c : Int) :
    ∃ S, statusLabel normalize c = some S ∧ quote ∉ S.data := by
  cases normalize with
  | false => exact ⟨Itoa c, rfl, Itoa_no_quote c⟩
  | true =>
    have hq := Itoa_no_quote c
    unfold statusLabel
    simp only [if_true]
    cases hd : (Itoa c).data with
    | nil =>
      exfalso
      have h := Itoa_data c
      rw [hd] at h
      have hne := decimalDigits_ne_nil c.natAbs
      have h2 := h.symm
      simp only [List.append_eq_nil] at h2
      exact hne h2.2
    | cons b rest =>
      refine ⟨_, rfl, ?_⟩
      rw [hd] at hq
      have hb : quote ≠ b := fun hb => hq (by simp [hb])
      have hX : quote ≠ Char.ofNat 88 := by decide
      simp only [String.data_append, String.singleton]
      intro hmem
      have hcases : quote = b ∨ quote = Char.ofNat 88 := by
        simpa [String.data] using hmem
      rcases hcases with hc | hc
      · exact hb hc
      · exact hX hc

/-- C5 (amended): with the normalize flag set, the status label of a status
code `c ≥ 0` is the leading decimal digit of `c` followed by `XX`; for
`100 ≤ c ≤ 999` this is the digit of `c / 100` followed by `XX`. -/
theorem statusLabel_normalize_nonneg (c : Int) (hc : 0 ≤ c) :
    statusLabel true c = some (String.singleton (Nat.digitChar (leadingDigit c.toNat)) ++ "XX")
    ∧ leadingDigit c.toNat < 10
    ∧ (100 ≤ c → c ≤ 999 →
        statusLabel true c = some (String.singleton (Nat.digitChar (c.toNat / 100)) ++ "XX")) := by
  obtain ⟨n, rfl⟩ := Int.eq_ofNat_of_zero_le hc
  refine ⟨statusLabel_normalize_ofNat n, leadingDigit_lt_ten _, ?_⟩
  intro hlo hhi
  have h := statusLabel_normalize_ofNat n
  rw [leadingDigit_three_digits n (by omega) (by omega)] at h
  exact h

theorem statusLabel_normalize_nonneg_witness :
    statusLabel true 200 = some "2XX" ∧ statusLabel true 204 = some "2XX"
    ∧ statusLabel true 404 = some "4XX" ∧ statusLabel true 503 = some "5XX" :=
  ⟨(statusLabel_normalize_nonneg 200 (by decide)).2.2 (by decide) (by decide),
   (statusLabel_normalize_nonneg 204 (by decide)).2.2 (by decide) (by decide),
   (statusLabel_normalize_nonneg 404 (by decide)).2.2 (by decide) (by decide),
   (statusLabel_normalize_nonneg 503 (by decide)).2.2 (by decide) (by decide)⟩

/-- C5 (as stated) fails: for the status code `-404` the normalized label is
`-XX`, which is no decimal digit followed by `XX`. -/
theorem statusLabel_normalize_negative :
    statusLabel true (-404) = some "-XX" ∧
    ¬ ∀ c : Int, ∃ d : Nat, d < 10 ∧
      statusLabel true c = some (String.singleton (Nat.digitChar d) ++ "XX") := by
  refine ⟨by decide, ?_⟩
  intro h
  obtain ⟨d, hd, hl⟩ := h (-404)
  have h1 : statusLabel true (-404) = some "-XX" := by decide
  rw [h1] at hl
  interval_cases d <;> revert hl <;> decide

/-- C6: without the normalize flag the status label of every status code `c` is
the decimal text `strconv.Itoa` gives for `c`, that is an optional minus sign
followed by the decimal digits of the absolute value, which denote that value;
two status codes with the same status label are equal. -/
theorem statusLabel_exact (c : Int) :
    statusLabel false c = some (Itoa c)
    ∧ (Itoa c).data = (if c < 0 then [minus] else []) ++ decimalDigits c.natAbs
    ∧ decimalValue (decimalDigits c.natAbs) = c.natAbs
    ∧ (∀ c2 : Int, statusLabel false c = statusLabel false c2 ↔ c = c2)
    ∧ statusLabel false 200 = some "200" ∧ statusLabel false 404 = some "404" := by
  refine ⟨rfl, Itoa_data c, decimalValue_decimalDigits _, ?_, by decide, by decide⟩
  intro c2
  constructor
  · intro h
    have h2 : some (Itoa c) = some (Itoa c2) := h
    exact Itoa_injective c c2 (Option.some.inj h2)
  · intro h
    rw [h]

/-! ## The effect of `RoundTrip` -/

theorem record_spec (h : Heap) (m : SetRef) (name : String) (d : Duration)
    (hv : ValidateMetric name = true) (hk : h.sets m name ≠ some Metric.other) :
    ∃ h1, h.record m name d = some h1 ∧ h1.next = h.next ∧
      h1.sets m name
        = some (Metric.histogram (Histogram.mk ((h.sets m).observations name ++ [d]))) ∧
      (∀ other, other ≠ name → h1.sets m other = h.sets m other) ∧
      (∀ m2, m2 ≠ m → h1.sets m2 = h.sets m2) := by
  unfold Heap.record MetricsSet.GetOrCreateHistogram
  cases hq : h.sets m name with
  | none =>
    simp only [hv, if_true]
    refine ⟨_, rfl, rfl, ?_, ?_, ?_⟩
    · simp [MetricsSet.UpdateDuration, MetricsSet.observations, hq]
    · intro other hne
      simp [MetricsSet.UpdateDuration, Function.update_noteq hne]
    · intro m2 hne
      simp [Function.update_noteq hne]
  | some metric =>
    cases metric with
    | other => exact absurd hq hk
    | histogram hist =>
      refine ⟨_, rfl, rfl, ?_, ?_, ?_⟩
      · simp [MetricsSet.UpdateDuration, MetricsSet.observations, hq]
      · intro other hne
        simp [MetricsSet.UpdateDuration, hq, Function.update_noteq hne]
      · intro m2 hne
        simp [Function.update_noteq hne]

theorem RoundTrip_success (t : Transport) (rt : RoundTripper) (m : SetRef)
    (order : List (Regexp × String)) (elapsed : Duration) (r : Request) (h h1 : Heap)
    (resp : Response) (req : Request) (url : URL) (S : String)
    (hrt : t.rt = some rt) (hm : t.m = some m) (hres : rt r = (some resp, none))
    (hreq : resp.Request = some req) (hurl : req.URL = some url)
    (hS : statusLabel t.normalize resp.StatusCode = some S)
    (hrec : h.record m (metricName S req.Method (routeLabel order url.String) t.name) elapsed
      = some h1) :
    RoundTrip t order elapsed r h = (Outcome.returned (some resp) none, h1) := by
  simp [RoundTrip, hrt, hm, hres, hreq, hurl, hS, hrec]

theorem RoundTrip_heap_cases (t : Transport) (order : List (Regexp × String))
    (elapsed : Duration) (r : Request) (h : Heap) :
    (RoundTrip t order elapsed r h).2 = h ∨
      ∃ m S M U, t.m = some m ∧
        (RoundTrip t order elapsed r h).2 = h.record m (metricName S M U t.name) elapsed := by
  unfold RoundTrip
  split
  · exact Or.inl rfl
  · split
    · exact Or.inl rfl
    · exact Or.inl rfl
    · split
      · exact Or.inl rfl
      · split
        · exact Or.inl rfl
        · split
          · exact Or.inl rfl
          · split
            · exact Or.inl rfl
            · next m hm =>
              simp only []
              split
              · exact Or.inl rfl
              · next h2 hrec => exact Or.inr ⟨m, _, _, _, hm, hrec.symm⟩

/-- C3: when the underlying transport reports an error, `RoundTrip` returns the
pair of response and error that the underlying transport returned and leaves
the heap of metrics sets as it was. -/
theorem RoundTrip_error_passthrough (t : Transport) (rt : RoundTripper)
    (order : List (Regexp × String)) (elapsed : Duration) (r : Request) (h : Heap)
    (resp : Option Response) (err : Error)
    (hrt : t.rt = some rt) (hres : rt r = (resp, some err)) :
    RoundTrip t order elapsed r h = (Outcome.returned resp (some err), h) := by
  simp [RoundTrip, hrt, hres]

theorem RoundTrip_error_passthrough_witness :
    RoundTrip (svcTransport refusingTransport) [(usersIdPattern, "/users/:id")] 5 getUsers42
        Heap.empty
      = (Outcome.returned none (some (Error.mk "connection refused")), Heap.empty) :=
  RoundTrip_error_passthrough (svcTransport refusingTransport) refusingTransport
    [(usersIdPattern, "/users/:id")] 5 getUsers42 Heap.empty none
    (Error.mk "connection refused") rfl rfl

/-- C4 fails on the code: when the underlying transport returns, without error,
a response that records no originating request, `RoundTrip` dereferences a nil
pointer instead of returning the response. -/
theorem RoundTrip_panics_without_request :
    bareTransport getUsers42 = (some (Response.mk 200 "" none), none) ∧
    RoundTrip (svcTransport bareTransport) [(usersIdPattern, "/users/:id")] 5 getUsers42
        Heap.empty
      = (Outcome.panicked, Heap.empty) :=
  ⟨rfl, rfl⟩

/-- C7 (amended): when the underlying transport returns, without error, a
response that carries its request with a URL, and the name composed of the status
label, the method and route label of that request, and the service name passes
the library's validation and is held by no metric of another kind, `RoundTrip`
returns that response and adds one observation to the histogram of that name in
the transport's set; the histogram is created if absent, its count grows by
one, and every other metric and every other set is unchanged. -/
theorem RoundTrip_records_one_observation (t : Transport) (rt : RoundTripper) (m : SetRef)
    (order : List (Regexp × String)) (elapsed : Duration) (r : Request) (h : Heap)
    (resp : Response) (req : Request) (url : URL)
    (hrt : t.rt = some rt) (hm : t.m = some m) (hres : rt r = (some resp, none))
    (hreq : resp.Request = some req) (hurl : req.URL = some url)
    (hvalid : ∀ S, statusLabel t.normalize resp.StatusCode = some S →
      ValidateMetric (metricName S req.Method (routeLabel order url.String) t.name) = true)
    (hkind : ∀ S, statusLabel t.normalize resp.StatusCode = some S →
      h.sets m (metricName S req.Method (routeLabel order url.String) t.name)
        ≠ some Metric.other) :
    ∃ S, statusLabel t.normalize resp.StatusCode = some S ∧
      (RoundTrip t order elapsed r h).1 = Outcome.returned (some resp) none ∧
      (RoundTrip t order elapsed r h).2.sets m
          (metricName S req.Method (routeLabel order url.String) t.name)
        = some (Metric.histogram (Histogram.mk
            ((h.sets m).observations
              (metricName S req.Method (routeLabel order url.String) t.name) ++ [elapsed]))) ∧
      ((RoundTrip t order elapsed r h).2.sets m).count
          (metricName S req.Method (routeLabel order url.String) t.name)
        = some (((h.sets m).count
            (metricName S req.Method (routeLabel order url.String) t.name)).getD 0 + 1) ∧
      (∀ other, other ≠ metricName S req.Method (routeLabel order url.String) t.name →
        (RoundTrip t order elapsed r h).2.sets m other = h.sets m other) ∧
      (∀ m2, m2 ≠ m → (RoundTrip t order elapsed r h).2.sets m2 = h.sets m2) ∧
      (RoundTrip t order elapsed r h).2.next = h.next := by
  obtain ⟨S, hS, _⟩ := statusLabel_total t.normalize resp.StatusCode
  obtain ⟨h1, hrec, hnext, hsame, hother, hsets⟩ :=
    record_spec h m (metricName S req.Method (routeLabel order url.String) t.name) elapsed
      (hvalid S hS) (hkind S hS)
  refine ⟨S, hS, ?_⟩
  rw [RoundTrip_success t rt m order elapsed r h h1 resp req url S hrt hm hres hreq hurl hS hrec]
  refine ⟨rfl, hsame, ?_, hother, hsets, hnext⟩
  have hk := hkind S hS
  simp only [MetricsSet.count, hsame, MetricsSet.observations]
  cases hq : h.sets m (metricName S req.Method (routeLabel order url.String) t.name) with
  | none => simp [Histogram.count]
  | some metric =>
    cases metric with
    | other => exact absurd hq hk
    | histogram hist => simp [Histogram.count]

theorem RoundTrip_records_one_observation_witness :
    ((RoundTrip (svcTransport (answeringTransport 200)) [(usersIdPattern, "/users/:id")]
        10000000 getUsers42 Heap.empty).2.sets 0).count
      "http_client_request_duration_seconds\x7bstatus=\"200\",method=\"GET\",url=\"/users/:id\",module_name=\"svc\"\x7d"
        = some 1 := by
  have h2 : statusLabel false 200 = some "200" := by decide
  obtain ⟨S, hS, _, _, hcount, _⟩ :=
    RoundTrip_records_one_observation (svcTransport (answeringTransport 200))
      (answeringTransport 200) 0 [(usersIdPattern, "/users/:id")] 10000000 getUsers42 Heap.empty
      (Response.mk 200 "" (some getUsers42)) getUsers42 (URL.mk "/users/42") rfl rfl rfl rfl rfl
      (fun S hS => by
        have e : S = "200" := Option.some.inj (hS.symm.trans h2)
        subst e
        decide)
      (fun S hS => by
        have e : S = "200" := Option.some.inj (hS.symm.trans h2)
        subst e
        decide)
  have hS2 : S = "200" := Option.some.inj (hS.symm.trans h2)
  subst hS2
  exact hcount

/-- C7 (as stated) fails: the underlying transport answers `GET /users/42` with
status 200 and no error, and `RoundTrip` records nothing, once because a
service name with a double quote in it makes a name that the library rejects,
once because a metric of another kind holds the composed name; both calls panic
and leave the registry as it was. -/
theorem RoundTrip_records_nothing_when_library_panics :
    answeringTransport 200 getUsers42 = (some (Response.mk 200 "" (some getUsers42)), none) ∧
    ValidateMetric (metricName "200" "GET" "/users/42" "sv\"c") = false ∧
    RoundTrip (Transport.mk (some 0) (some (answeringTransport 200)) "sv\"c" [] false) []
        10000000 getUsers42 Heap.empty
      = (Outcome.panicked, Heap.empty) ∧
    Heap.withOtherMetric.sets 0 (metricName "200" "GET" "/users/:id" "svc")
      = some Metric.other ∧
    RoundTrip (svcTransport (answeringTransport 200)) [(usersIdPattern, "/users/:id")]
        10000000 getUsers42 Heap.withOtherMetric
      = (Outcome.panicked, Heap.withOtherMetric) :=
  ⟨rfl, by decide, rfl, by decide, rfl⟩

/-! ## The metric name -/

theorem append_quote_cancel (a : List Char) : ∀ (a2 r r2 : List Char), quote ∉ a → quote ∉ a2 →
    a ++ quote :: r = a2 ++ quote :: r2 → a = a2 ∧ r = r2 := by
  induction a with
  | nil =>
    intro a2 r r2 _ ha2 h
    cases a2 with
    | nil => simpa using h
    | cons c cs =>
      simp only [List.nil_append, List.cons_append, List.cons.injEq] at h
      exact absurd (by simp [h.1]) ha2
  | cons c cs ih =>
    intro a2 r r2 ha ha2 h
    cases a2 with
    | nil =>
      simp only [List.nil_append, List.cons_append, List.cons.injEq] at h
      exact absurd (by simp [h.1]) ha
    | cons c2 cs2 =>
      simp only [List.cons_append, List.cons.injEq] at h
      have hrec := ih cs2 r r2 (fun hm => ha (List.mem_cons_of_mem _ hm))
        (fun hm => ha2 (List.mem_cons_of_mem _ hm)) h.2
      exact ⟨by rw [h.1, hrec.1], hrec.2⟩

theorem metricName_data (S M U N : String) :
    (metricName S M U N).data
      = "http_client_request_duration_seconds\x7bstatus=".data ++ (quote :: (S.data ++ (quote ::
          (",method=".data ++ (quote :: (M.data ++ (quote :: (",url=".data ++ (quote ::
            (U.data ++ (quote :: (",module_name=".data ++ (quote ::
              (N.data ++ [quote, Char.ofNat 125])))))))))))))) := by
  simp only [metricName, String.data_append, List.append_assoc]
  rfl

theorem metricName_injective (S M U N S2 M2 U2 N2 : String)
    (hS : quote ∉ S.data) (hM : quote ∉ M.data) (hU : quote ∉ U.data)
    (hS2 : quote ∉ S2.data) (hM2 : quote ∉ M2.data) (hU2 : quote ∉ U2.data)
    (h : metricName S M U N = metricName S2 M2 U2 N2) :
    S = S2 ∧ M = M2 ∧ U = U2 ∧ N = N2 := by
  have hd : (metricName S M U N).data = (metricName S2 M2 U2 N2).data := by rw [h]
  rw [metricName_data, metricName_data] at hd
  have h1 := List.cons.inj (List.append_cancel_left hd)
  obtain ⟨eS, h2⟩ := append_quote_cancel _ _ _ _ hS hS2 h1.2
  have h3 := List.cons.inj (List.append_cancel_left h2)
  obtain ⟨eM, h4⟩ := append_quote_cancel _ _ _ _ hM hM2 h3.2
  have h5 := List.cons.inj (List.append_cancel_left h4)
  obtain ⟨eU, h6⟩ := append_quote_cancel _ _ _ _ hU hU2 h5.2
  have h7 := List.cons.inj (List.append_cancel_left h6)
  have eN := List.append_cancel_right h7.2
  exact ⟨String.ext eS, String.ext eM, String.ext eU, String.ext eN⟩

/-- C8 (amended): for status labels that `RoundTrip` computes, methods and
route labels without a double quote, and composed names that pass the library's
validation and are held by no metric of another kind, two composed histogram
names are equal if and only if the label sets are equal component by component;
recording under both names succeeds, two observations under equal label sets go
to one histogram, and observations under differing label sets go to two
distinct histograms. -/
theorem metricName_eq_iff (normalize normalize2 : Bool) (c c2 : Int)
    (S M U N S2 M2 U2 N2 : String) (h : Heap) (m : SetRef) (d d2 : Duration)
    (hS : statusLabel normalize c = some S) (hS2 : statusLabel normalize2 c2 = some S2)
    (hM : quote ∉ M.data) (hU : quote ∉ U.data)
    (hM2 : quote ∉ M2.data) (hU2 : quote ∉ U2.data)
    (hv : ValidateMetric (metricName S M U N) = true)
    (hv2 : ValidateMetric (metricName S2 M2 U2 N2) = true)
    (hk : h.sets m (metricName S M U N) ≠ some Metric.other)
    (hk2 : h.sets m (metricName S2 M2 U2 N2) ≠ some Metric.other) :
    (metricName S M U N = metricName S2 M2 U2 N2 ↔ S = S2 ∧ M = M2 ∧ U = U2 ∧ N = N2) ∧
    ∃ h1 h2, h.record m (metricName S M U N) d = some h1 ∧
      h1.record m (metricName S2 M2 U2 N2) d2 = some h2 ∧
      ((S = S2 ∧ M = M2 ∧ U = U2 ∧ N = N2) →
        h2.sets m (metricName S M U N) = some (Metric.histogram (Histogram.mk
          ((h.sets m).observations (metricName S M U N) ++ [d, d2])))) ∧
      (¬ (S = S2 ∧ M = M2 ∧ U = U2 ∧ N = N2) →
        metricName S M U N ≠ metricName S2 M2 U2 N2 ∧
        h2.sets m (metricName S M U N) = some (Metric.histogram (Histogram.mk
          ((h.sets m).observations (metricName S M U N) ++ [d]))) ∧
        h2.sets m (metricName S2 M2 U2 N2) = some (Metric.histogram (Histogram.mk
          ((h.sets m).observations (metricName S2 M2 U2 N2) ++ [d2])))) := by
  have hiff : metricName S M U N = metricName S2 M2 U2 N2
      ↔ S = S2 ∧ M = M2 ∧ U = U2 ∧ N = N2 := by
    constructor
    · intro hname
      obtain ⟨T, hT, hq⟩ := statusLabel_total normalize c
      obtain ⟨T2, hT2, hq2⟩ := statusLabel_total normalize2 c2
      have e1 : T = S := Option.some.inj (hT.symm.trans hS)
      have e2 : T2 = S2 := Option.some.inj (hT2.symm.trans hS2)
      subst e1 e2
      exact metricName_injective _ _ _ _ _ _ _ _ hq hM hU hq2 hM2 hU2 hname
    · rintro ⟨rfl, rfl, rfl, rfl⟩
      rfl
  obtain ⟨h1, hrec1, _, hsame1, hother1, _⟩ := record_spec h m (metricName S M U N) d hv hk
  have hk1 : h1.sets m (metricName S2 M2 U2 N2) ≠ some Metric.other := by
    by_cases hname : metricName S2 M2 U2 N2 = metricName S M U N
    · rw [hname, hsame1]
      simp
    · rw [hother1 _ hname]
      exact hk2
  obtain ⟨h2, hrec2, _, hsame2, hother2, _⟩ :=
    record_spec h1 m (metricName S2 M2 U2 N2) d2 hv2 hk1
  refine ⟨hiff, h1, h2, hrec1, hrec2, ?_, ?_⟩
  · intro heq
    have hname := hiff.mpr heq
    rw [← hname] at hsame2
    rw [hsame2]
    simp [MetricsSet.observations, hsame1]
  · intro hne
    have hname : metricName S M U N ≠ metricName S2 M2 U2 N2 := fun e => hne (hiff.mp e)
    refine ⟨hname, ?_, ?_⟩
    · rw [hother2 _ hname, hsame1]
    · rw [hsame2]
      simp [MetricsSet.observations, hother1 _ (Ne.symm hname)]

theorem metricName_eq_iff_witness :
    metricName "200" "GET" "/users/:id" "svc" ≠ metricName "2XX" "GET" "/users/:id" "svc" ∧
    ∃ h1 h2, Heap.empty.record 0 (metricName "200" "GET" "/users/:id" "svc") 10 = some h1 ∧
      h1.record 0 (metricName "2XX" "GET" "/users/:id" "svc") 20 = some h2 ∧
      h2.sets 0 (metricName "200" "GET" "/users/:id" "svc")
        = some (Metric.histogram (Histogram.mk [10])) ∧
      h2.sets 0 (metricName "2XX" "GET" "/users/:id" "svc")
        = some (Metric.histogram (Histogram.mk [20])) := by
  obtain ⟨_, h1, h2, hrec1, hrec2, _, hdiff⟩ :=
    metricName_eq_iff false true 200 200 "200" "GET" "/users/:id" "svc" "2XX" "GET" "/users/:id"
      "svc" Heap.empty 0 10 20 (by decide) (by decide) (by decide) (by decide) (by decide)
      (by decide) (by decide) (by decide) (by decide) (by decide)
  obtain ⟨hne, hA, hB⟩ := hdiff (by decide)
  exact ⟨hne, h1, h2, hrec1, hrec2, hA, hB⟩

/-- C8 (as stated) fails: two label sets that differ in route label and service
name compose the same histogram name, one that the library accepts, when a
double quote occurs in them. -/
theorem metricName_not_injective :
    ValidateMetric (metricName "200" "GET" "x\",module_name=\"y" "z") = true ∧
    metricName "200" "GET" "x\",module_name=\"y" "z"
      = metricName "200" "GET" "x" "y\",module_name=\"z" ∧
    ¬ ∀ (normalize normalize2 : Bool) (c c2 : Int) (S M U N S2 M2 U2 N2 : String),
        statusLabel normalize c = some S → statusLabel normalize2 c2 = some S2 →
        (metricName S M U N = metricName S2 M2 U2 N2 ↔ S = S2 ∧ M = M2 ∧ U = U2 ∧ N = N2) := by
  refine ⟨by decide, by decide, ?_⟩
  intro h
  have h1 := h false false 200 200 "200" "GET" "x\",module_name=\"y" "z" "200" "GET" "x"
    "y\",module_name=\"z" (by decide) (by decide)
  revert h1
  decide

/-! ## Construction -/

theorem NewTransport_fields (dt : RoundTripper) (p : Prefs) (h : Heap) :
    (NewTransport dt p h).1.name = (if p.Name = "" then "client-metrics" else p.Name) ∧
    (NewTransport dt p h).1.normalize = p.Normalize ∧
    (NewTransport dt p h).1.mr = p.MatchRoute ∧
    (NewTransport dt p h).1.rt = some (p.Transport.getD dt) ∧
    (NewTransport dt p h).1.m = some (p.Metrics.getD h.next) ∧
    (NewTransport dt p h).2.1 = Prefs.mk (NewTransport dt p h).1.m p.Normalize
      (NewTransport dt p h).1.name p.MatchRoute (NewTransport dt p h).1.rt ∧
    (NewTransport dt p h).2.2 = (if p.Metrics.isNone then (NewSet h).2 else h) := by
  obtain ⟨met, norm, name, mr, tr⟩ := p
  cases met <;> cases tr <;> by_cases hn : name = "" <;> simp [NewTransport, hn, NewSet]

/-- C9: the transport that `NewTransport` returns has the service name
`client-metrics` when `p.Name` is empty and `p.Name` otherwise, and the
normalize flag and route rules of `p` (false and empty for the zero `Prefs`);
its service name is never empty, and every histogram that `RoundTrip` records
on it has a name composed with that service name. -/
theorem NewTransport_defaults (dt : RoundTripper) (p : Prefs) (h : Heap) :
    (NewTransport dt p h).1.name = (if p.Name = "" then "client-metrics" else p.Name) ∧
    (NewTransport dt p h).1.normalize = p.Normalize ∧
    (NewTransport dt p h).1.mr = p.MatchRoute ∧
    (NewTransport dt Prefs.zero h).1.name = "client-metrics" ∧
    (NewTransport dt Prefs.zero h).1.normalize = false ∧
    (NewTransport dt Prefs.zero h).1.mr = [] ∧
    (NewTransport dt p h).1.name ≠ "" ∧
    ∀ (order : List (Regexp × String)) (elapsed : Duration) (r : Request) (h2 : Heap),
      (RoundTrip (NewTransport dt p h).1 order elapsed r h2).2 = h2 ∨
      ∃ m S M U, (NewTransport dt p h).1.m = some m ∧
        (RoundTrip (NewTransport dt p h).1 order elapsed r h2).2
          = h2.record m (metricName S M U (NewTransport dt p h).1.name) elapsed := by
  obtain ⟨hname, hnorm, hmr, _⟩ := NewTransport_fields dt p h
  obtain ⟨hname0, hnorm0, hmr0, _⟩ := NewTransport_fields dt Prefs.zero h
  refine ⟨hname, hnorm, hmr, ?_, ?_, ?_, ?_, ?_⟩
  · rw [hname0]; rfl
  · rw [hnorm0]; rfl
  · rw [hmr0]; rfl
  · rw [hname]
    by_cases hn : p.Name = ""
    · simp [hn]
    · simp [hn]
  · intro order elapsed r h2
    exact RoundTrip_heap_cases _ order elapsed r h2

/-- C10: after `NewTransport` the caller's `Prefs` hold a non-empty name, an
underlying transport and a metrics set, the same as the returned transport,
and the normalize flag and route rules they held before; a second call on these
`Prefs` allocates nothing and returns a transport on the same metrics set, also
when the first call allocated the set because none was given. -/
theorem NewTransport_writes_back (dt : RoundTripper) (p : Prefs) (h : Heap) :
    (NewTransport dt p h).2.1.Name ≠ "" ∧
    (NewTransport dt p h).2.1.Name = (NewTransport dt p h).1.name ∧
    (NewTransport dt p h).2.1.Transport.isSome = true ∧
    (NewTransport dt p h).2.1.Transport = (NewTransport dt p h).1.rt ∧
    (NewTransport dt p h).2.1.Metrics.isSome = true ∧
    (NewTransport dt p h).2.1.Metrics = (NewTransport dt p h).1.m ∧
    (NewTransport dt p h).2.1.Normalize = p.Normalize ∧
    (NewTransport dt p h).2.1.MatchRoute = p.MatchRoute ∧
    (NewTransport dt (NewTransport dt p h).2.1 (NewTransport dt p h).2.2).1.m
      = (NewTransport dt p h).1.m ∧
    (NewTransport dt (NewTransport dt p h).2.1 (NewTransport dt p h).2.2).2.2
      = (NewTransport dt p h).2.2 ∧
    (p.Metrics = none →
      (NewTransport dt p h).1.m = some h.next ∧
      (NewTransport dt p h).2.2.next = h.next + 1 ∧
      (NewTransport dt p h).2.2.sets h.next = (fun _ => none) ∧
      (NewTransport dt (NewTransport dt p h).2.1 (NewTransport dt p h).2.2).1.m = some h.next ∧
      (NewTransport dt p (NewTransport dt p h).2.2).1.m = some (h.next + 1)) := by
  obtain ⟨met, norm, name, mr, tr⟩ := p
  cases met <;> cases tr <;> by_cases hn : name = "" <;> simp [NewTransport, hn, NewSet]

theorem NewTransport_writes_back_witness :
    (NewTransport refusingTransport Prefs.zero Heap.empty).1.m = some 0 ∧
    (NewTransport refusingTransport (NewTransport refusingTransport Prefs.zero Heap.empty).2.1
      (NewTransport refusingTransport Prefs.zero Heap.empty).2.2).1.m = some 0 ∧
    (NewTransport refusingTransport Prefs.zero
      (NewTransport refusingTransport Prefs.zero Heap.empty).2.2).1.m = some 1 :=
  have w := (NewTransport_writes_back refusingTransport Prefs.zero Heap.empty).2.2.2.2.2.2.2.2.2.2 rfl
  ⟨w.1, w.2.2.2.1, w.2.2.2.2⟩

end transport
